import Mathlib

/-!
Verification of the LSMLIB core sources against their natural-language
specification.  The definitions below are shallow embeddings of the MEX
wrapper functions `HJ_ENO3_3D.c` and
`COMPUTE_NORMAL_VELOCITY_TERM_FOR_LSE_RHS_3D.c`, of the narrow-band RHS
routine declared in `lsm_level_set_evolution3d_local.h`, and of the Fast
Marching main loop.  MATLAB mxArray metadata (dimensions, numeric class)
is modelled exactly; array contents are real-valued functions on integer
index triples.  C `int` division (truncation toward zero) is `Int.tdiv`.
-/

/-- Grid index: one integer per array axis (three axes). -/
def Idx3 : Type := Fin 3 → Int

instance : DecidableEq Idx3 := fun p q => Fintype.decidablePiFintype p q

/-- Rectangular index box with per-axis low and high bounds, as carried by
the `ilo_*_gb`/`ihi_*_gb` (etc.) variables of the C sources. -/
structure Box3 where
  lo : Fin 3 → Int
  hi : Fin 3 → Int

/-- Test whether a point lies inside a box on every axis. -/
def inBox3 (b : Box3) (p : Idx3) : Bool :=
  decide (∀ a : Fin 3, b.lo a ≤ p a ∧ p a ≤ b.hi a)

/-- C integer division: truncation toward zero, as used by the MEX sources
on `int` operands. -/
def cIntDiv (a b : Int) : Int := Int.tdiv a b

/-- MATLAB numeric class of an mxArray, as tested by `mxIsDouble` /
`mxIsSingle` in the MEX sources. -/
inductive MxClass where
  | double
  | single
deriving DecidableEq, Repr

/-- Numeric class the library was built for: `LSMLIB_DOUBLE_PRECISION`
selects double, otherwise single (the `#ifdef` switch in the sources). -/
def cfgClass (cfgDouble : Bool) : MxClass :=
  if cfgDouble then MxClass.double else MxClass.single

/-- Model of a MATLAB mxArray argument: its dimension list (as returned by
`mxGetNumberOfDimensions` / `mxGetDimensions`), its numeric class, and its
contents as a function on 1-based index triples. -/
structure MxArray where
  dims : List Nat
  cls : MxClass
  data : Idx3 → ℝ

/-- Dimension of an mxArray along axis `i` (`mxGetDimensions(...)[i]`). -/
def mxDim (arr : MxArray) (i : Nat) : Nat := arr.dims.getD i 1

/-- Dimension of an mxArray along axis `a`, as an integer. -/
def mxDimI (arr : MxArray) (a : Fin 3) : Int := (mxDim arr a.val : Int)

/-- Ghostbox of an mxArray under the MEX convention of the sources:
bounds `1 .. mxGetDimensions(...)[a]` on each axis. -/
def mxGhostBox (arr : MxArray) : Box3 :=
  { lo := fun _ => 1, hi := fun a => mxDimI arr a }

/-- Box shrunk by `w` cells on each side of each axis, as computed for the
fillbox (`ilo_fb = ilo_gb + ghostcell_width`, `ihi_fb = ihi_gb -
ghostcell_width`, etc.). -/
def shrinkBox (b : Box3) (w : Int) : Box3 :=
  { lo := fun a => b.lo a + w, hi := fun a => b.hi a - w }

/-- Array element seen through a (possibly shifted) box: the Fortran
kernels index an array declared over `lo..hi` at global indices, which is
MATLAB element `p - lo + 1`. -/
def boxData (arr : MxArray) (b : Box3) : Idx3 → ℝ :=
  fun p => arr.data (fun a => p a - b.lo a + 1)

/-- Argument names that can fail the precision check in the MEX sources. -/
inductive MexArg where
  | phi
  | normal_velocity
  | phi_x_plus
  | phi_y_plus
  | phi_z_plus
  | phi_x_minus
  | phi_y_minus
  | phi_z_minus
deriving DecidableEq, Repr

/-- Errors raised through `mexErrMsgTxt` by the two MEX wrappers, in the
order the checks appear in the sources.  `allocFailure` records which of
the scratch arrays D1, D2, D3 were successfully allocated and hence freed
before the abort. -/
inductive MexErr where
  | wrongNumInputs
  | tooManyOutputs
  | notThreeDim
  | precisionMismatch (arg : MexArg)
  | allocFailure (freed : List (Fin 3))
deriving DecidableEq, Repr

/-- Test whether an `Except` value is a success. -/
def isOkE {ε α : Type} : Except ε α → Bool
  | Except.ok _ => true
  | Except.error _ => false

/-- Test whether an `Except` value is an error. -/
def isErrE {ε α : Type} : Except ε α → Bool
  | Except.ok _ => false
  | Except.error _ => true

/-- Metadata of an mxArray created by a wrapper via `mxCreateNumericArray`:
its per-axis dimensions and numeric class. -/
structure MxCreated where
  dims : Fin 3 → Int
  cls : MxClass

/-- Dimension triple of an mxArray input, for comparison with created
output arrays. -/
def mxDims3 (arr : MxArray) : Fin 3 → Int := fun a => mxDimI arr a

/-- Coordinate axes of the returned gradient components. -/
inductive GradAxis where
  | x
  | y
  | z
deriving DecidableEq, Repr

/-- Grid spacing belonging to a coordinate axis inside the caller-supplied
`dX` array (`dX[0]` is the x spacing, `dX[1]` the y spacing, `dX[2]` the
z spacing). -/
def dxOfAxis (dX : Fin 3 → ℝ) : GradAxis → ℝ
  | GradAxis.x => dX 0
  | GradAxis.y => dX 1
  | GradAxis.z => dX 2

/-- Output argument stored into each positional derivative slot of the
`LSM3D_HJ_ENO3` call (`HJ_ENO3_3D.c` lines 246-254): slot 0 (derivative
along the first array index) receives `phi_y_*`, slot 1 receives
`phi_x_*`, slot 2 receives `phi_z_*` - the x and y output pointers are
swapped. -/
def hjKernelSlotOutput : Fin 3 → GradAxis
  | 0 => GradAxis.y
  | 1 => GradAxis.x
  | 2 => GradAxis.z

/-- Coordinate axis whose data varies along each MATLAB array index under
meshgrid ordering: data for point `(x_i, y_j, z_k)` is stored at index
`(j, i, k)` (`HJ_ENO3_3D.c` lines 42-50), so array index 0 runs along y,
index 1 along x, index 2 along z. -/
def meshgridAxisOfIndex : Fin 3 → GradAxis
  | 0 => GradAxis.y
  | 1 => GradAxis.x
  | 2 => GradAxis.z

/-- Inputs of the `HJ_ENO3_3D` mexFunction: argument counts, the `phi`
mxArray, the scalar `ghostcell_width` (read through `mxGetPr` and
converted to `int`), the `dX` spacing array (always read as double), and
an oracle for the success of the three `mxMalloc` scratch allocations. -/
structure HjEno3Input where
  nrhs : Nat
  nlhs : Nat
  phi : MxArray
  ghostcell_width : Int
  dX : Fin 3 → ℝ
  allocOk : Fin 3 → Bool

/-- Data produced by a successful `HJ_ENO3_3D` call: the six created
output arrays, the boxes and spacing values passed to the `LSM3D_HJ_ENO3`
kernel, and the scratch arrays freed on return. -/
structure HjEno3Result where
  phi_x_plus : MxCreated
  phi_y_plus : MxCreated
  phi_z_plus : MxCreated
  phi_x_minus : MxCreated
  phi_y_minus : MxCreated
  phi_z_minus : MxCreated
  gradBox : Box3
  phiBox : Box3
  fb : Box3
  dxMeshgridOrder : Fin 3 → ℝ
  freedScratch : List (Fin 3)

/-- Scratch arrays among D1, D2, D3 that were successfully allocated (and
are therefore freed by the cleanup code at `HJ_ENO3_3D.c` lines 182-187).
-/
def hjFreedList (inp : HjEno3Input) : List (Fin 3) :=
  (List.finRange 3).filter (fun i => inp.allocOk i)

/-- Validation sequence of `HJ_ENO3_3D.c` (lines 101-187), in source
order: argument counts, dimensionality of `phi`, floating-point precision
of `phi` against the build configuration, then the scratch-allocation
check.  Returns the first error raised, or `none` when the call proceeds
to create its outputs.  There is no check on `ghostcell_width`. -/
def hjError (cfgDouble : Bool) (inp : HjEno3Input) : Option MexErr :=
  if inp.nrhs ≠ 3 then some MexErr.wrongNumInputs
  else if 6 < inp.nlhs then some MexErr.tooManyOutputs
  else if inp.phi.dims.length ≠ 3 then some MexErr.notThreeDim
  else if inp.phi.cls ≠ cfgClass cfgDouble then some (MexErr.precisionMismatch MexArg.phi)
  else if (inp.allocOk 0 && inp.allocOk 1 && inp.allocOk 2) = false then
    some (MexErr.allocFailure (hjFreedList inp))
  else none

/-- Success path of `HJ_ENO3_3D.c` (lines 125-281): the `dX` entries are
permuted into meshgrid order (`dX_meshgrid_order[0] = dX[1]`,
`[1] = dX[0]`, `[2] = dX[2]`), the six output arrays are created with the
dimensions of `phi` (`data_array_dims_out[d] = ihi-ilo+1` over the grad
box, which equals the `phi` ghostbox), the fillbox is the ghostbox shrunk
by `ghostcell_width`, and all three scratch arrays are freed on return. -/
def hjBuild (cfgDouble : Bool) (inp : HjEno3Input) : HjEno3Result :=
  let phiBox := mxGhostBox inp.phi
  let gradBox := phiBox
  let outDims : Fin 3 → Int := fun a => gradBox.hi a - gradBox.lo a + 1
  let outArr : MxCreated := { dims := outDims, cls := cfgClass cfgDouble }
  { phi_x_plus := outArr
    phi_y_plus := outArr
    phi_z_plus := outArr
    phi_x_minus := outArr
    phi_y_minus := outArr
    phi_z_minus := outArr
    gradBox := gradBox
    phiBox := phiBox
    fb := shrinkBox phiBox inp.ghostcell_width
    dxMeshgridOrder := fun s =>
      match s with
      | 0 => inp.dX 1
      | 1 => inp.dX 0
      | 2 => inp.dX 2
    freedScratch := [0, 1, 2] }

/-- Shallow embedding of the `HJ_ENO3_3D` mexFunction: run the validation
sequence; on success produce the created outputs and the kernel-call
data. -/
def HJ_ENO3_3D (cfgDouble : Bool) (inp : HjEno3Input) : Except MexErr HjEno3Result :=
  match hjError cfgDouble inp with
  | some e => Except.error e
  | none => Except.ok (hjBuild cfgDouble inp)

/-- Fillbox passed to the kernel by a successful `HJ_ENO3_3D` call. -/
def hjFbOf (x : Except MexErr HjEno3Result) : Box3 :=
  match x with
  | Except.ok r => r.fb
  | Except.error _ => { lo := fun _ => 0, hi := fun _ => 0 }

/-- Meshgrid-permuted spacing passed to the kernel by a successful
`HJ_ENO3_3D` call. -/
def hjDxMeshOf (x : Except MexErr HjEno3Result) : Fin 3 → ℝ :=
  match x with
  | Except.ok r => r.dxMeshgridOrder
  | Except.error _ => fun _ => 0

/-- The six output arrays created by a successful `HJ_ENO3_3D` call. -/
def hjOutputsOf (x : Except MexErr HjEno3Result) : List MxCreated :=
  match x with
  | Except.ok r =>
      [r.phi_x_plus, r.phi_y_plus, r.phi_z_plus,
       r.phi_x_minus, r.phi_y_minus, r.phi_z_minus]
  | Except.error _ => []

/-- Godunov entropy-satisfying combination for the normal-velocity term.
Modelled from the spec: for velocity > 0 each axis combines
`max(plus,0)^2` and `min(minus,0)^2`; the axis terms are summed and
square-rooted, and symmetrically for velocity < 0. -/
noncomputable def godunovGradMag (v pxp pyp pzp pxm pym pzm : ℝ) : ℝ :=
  if 0 < v then
    Real.sqrt (max ((max pxp 0) ^ 2) ((min pxm 0) ^ 2)
      + max ((max pyp 0) ^ 2) ((min pym 0) ^ 2)
      + max ((max pzp 0) ^ 2) ((min pzm 0) ^ 2))
  else
    Real.sqrt (max ((max pxm 0) ^ 2) ((min pxp 0) ^ 2)
      + max ((max pym 0) ^ 2) ((min pyp 0) ^ 2)
      + max ((max pzm 0) ^ 2) ((min pzp 0) ^ 2))

/-- Modelled from the spec: the Fortran kernel
`LSM3D_ADD_NORMAL_VEL_TERM_TO_LSE_RHS` (only its caller is among the
sources) loops over the fillbox and adds `-vel_n * |grad(phi)|` to
`lse_rhs` there, with `|grad(phi)|` the Godunov combination of the
one-sided derivatives; cells outside the fillbox are left untouched. -/
noncomputable def LSM3D_ADD_NORMAL_VEL_TERM_TO_LSE_RHS
    (lse_rhs : Idx3 → ℝ)
    (phi_x_plus phi_y_plus phi_z_plus : Idx3 → ℝ)
    (phi_x_minus phi_y_minus phi_z_minus : Idx3 → ℝ)
    (vel_n : Idx3 → ℝ) (fb : Box3) : Idx3 → ℝ :=
  fun p =>
    if inBox3 fb p then
      lse_rhs p - vel_n p *
        godunovGradMag (vel_n p)
          (phi_x_plus p) (phi_y_plus p) (phi_z_plus p)
          (phi_x_minus p) (phi_y_minus p) (phi_z_minus p)
    else lse_rhs p

/-- Bound adjustment of `COMPUTE_NORMAL_VELOCITY_TERM_FOR_LSE_RHS_3D.c`
(lines 204-220 and 230-246): an input array starts with bounds
`1 .. extent`; when its high bound differs from `phi`'s, both bounds are
shifted by `(hi_phi - hi_arr)/2` (C integer division) so the smaller box
is centered inside `phi`'s ghostbox. -/
def centerBounds (hiPhi hiArr : Int) : Int × Int :=
  if hiArr ≠ hiPhi then
    (1 + cIntDiv (hiPhi - hiArr) 2, hiArr + cIntDiv (hiPhi - hiArr) 2)
  else (1, hiArr)

/-- Inputs of the `COMPUTE_NORMAL_VELOCITY_TERM_FOR_LSE_RHS_3D`
mexFunction: argument counts, the nine MATLAB arguments
(`ghostcell_width` read through `mxGetPr` and converted to `int`). -/
structure NormalVelInput where
  nrhs : Nat
  nlhs : Nat
  phi : MxArray
  ghostcell_width : Int
  normal_velocity : MxArray
  phi_x_plus : MxArray
  phi_y_plus : MxArray
  phi_z_plus : MxArray
  phi_x_minus : MxArray
  phi_y_minus : MxArray
  phi_z_minus : MxArray

/-- Data produced by a successful call: the created `lse_rhs` array, its
final contents, and the boxes passed to the Fortran kernel.
`gradMinusBox` records that the kernel call passes the same bound
variables for the minus gradients as for the plus gradients. -/
structure NormalVelResult where
  lse_rhs : MxCreated
  rhs : Idx3 → ℝ
  rhsBox : Box3
  velBox : Box3
  gradBox : Box3
  gradMinusBox : Box3
  fb : Box3

/-- Validation sequence of
`COMPUTE_NORMAL_VELOCITY_TERM_FOR_LSE_RHS_3D.c` (lines 111-176), in
source order: argument counts, the eight precision checks, then the
dimensionality check on `phi`.  No extents are compared; the dimensions
of the minus gradient arrays are never read. -/
def nvError (cfgDouble : Bool) (inp : NormalVelInput) : Option MexErr :=
  if inp.nrhs ≠ 9 then some MexErr.wrongNumInputs
  else if 1 < inp.nlhs then some MexErr.tooManyOutputs
  else if inp.phi.cls ≠ cfgClass cfgDouble then
    some (MexErr.precisionMismatch MexArg.phi)
  else if inp.normal_velocity.cls ≠ cfgClass cfgDouble then
    some (MexErr.precisionMismatch MexArg.normal_velocity)
  else if inp.phi_x_plus.cls ≠ cfgClass cfgDouble then
    some (MexErr.precisionMismatch MexArg.phi_x_plus)
  else if inp.phi_y_plus.cls ≠ cfgClass cfgDouble then
    some (MexErr.precisionMismatch MexArg.phi_y_plus)
  else if inp.phi_z_plus.cls ≠ cfgClass cfgDouble then
    some (MexErr.precisionMismatch MexArg.phi_z_plus)
  else if inp.phi_x_minus.cls ≠ cfgClass cfgDouble then
    some (MexErr.precisionMismatch MexArg.phi_x_minus)
  else if inp.phi_y_minus.cls ≠ cfgClass cfgDouble then
    some (MexErr.precisionMismatch MexArg.phi_y_minus)
  else if inp.phi_z_minus.cls ≠ cfgClass cfgDouble then
    some (MexErr.precisionMismatch MexArg.phi_z_minus)
  else if inp.phi.dims.length ≠ 3 then some MexErr.notThreeDim
  else none

/-- Success path of `COMPUTE_NORMAL_VELOCITY_TERM_FOR_LSE_RHS_3D.c`
(lines 178-307): bounds `1..extent` for `phi`, centering shifts for the
velocity and gradient boxes (gradient bounds read from `phi_x_plus`
alone and reused for the minus arrays), creation of `lse_rhs` with
`phi`'s dimensions, zeroing of the whole output, and the kernel call over
the fillbox `phi` ghostbox shrunk by `ghostcell_width`. -/
noncomputable def nvBuild (cfgDouble : Bool) (inp : NormalVelInput) : NormalVelResult :=
  let phiBox := mxGhostBox inp.phi
  let velBox : Box3 :=
    { lo := fun a => (centerBounds (mxDimI inp.phi a) (mxDimI inp.normal_velocity a)).1
      hi := fun a => (centerBounds (mxDimI inp.phi a) (mxDimI inp.normal_velocity a)).2 }
  let gradBox : Box3 :=
    { lo := fun a => (centerBounds (mxDimI inp.phi a) (mxDimI inp.phi_x_plus a)).1
      hi := fun a => (centerBounds (mxDimI inp.phi a) (mxDimI inp.phi_x_plus a)).2 }
  let rhsBox := phiBox
  let outDims : Fin 3 → Int := fun a => rhsBox.hi a - rhsBox.lo a + 1
  let zeroed : Idx3 → ℝ := fun _ => 0
  let fb := shrinkBox rhsBox inp.ghostcell_width
  { lse_rhs := { dims := outDims, cls := cfgClass cfgDouble }
    rhs :=
      LSM3D_ADD_NORMAL_VEL_TERM_TO_LSE_RHS zeroed
        (boxData inp.phi_x_plus gradBox) (boxData inp.phi_y_plus gradBox)
        (boxData inp.phi_z_plus gradBox)
        (boxData inp.phi_x_minus gradBox) (boxData inp.phi_y_minus gradBox)
        (boxData inp.phi_z_minus gradBox)
        (boxData inp.normal_velocity velBox) fb
    rhsBox := rhsBox
    velBox := velBox
    gradBox := gradBox
    gradMinusBox := gradBox
    fb := fb }

/-- Shallow embedding of the `COMPUTE_NORMAL_VELOCITY_TERM_FOR_LSE_RHS_3D`
mexFunction. -/
noncomputable def COMPUTE_NORMAL_VELOCITY_TERM_FOR_LSE_RHS_3D
    (cfgDouble : Bool) (inp : NormalVelInput) : Except MexErr NormalVelResult :=
  match nvError cfgDouble inp with
  | some e => Except.error e
  | none => Except.ok (nvBuild cfgDouble inp)

/-- Created `lse_rhs` array of a successful call. -/
def nvCreatedOf (x : Except MexErr NormalVelResult) : MxCreated :=
  match x with
  | Except.ok r => r.lse_rhs
  | Except.error _ => { dims := fun _ => 0, cls := MxClass.double }

/-- Final `lse_rhs` contents of a successful call. -/
noncomputable def nvRhsOf (x : Except MexErr NormalVelResult) : Idx3 → ℝ :=
  match x with
  | Except.ok r => r.rhs
  | Except.error _ => fun _ => 0

/-- Fillbox passed to the kernel by a successful call. -/
def nvFbOf (x : Except MexErr NormalVelResult) : Box3 :=
  match x with
  | Except.ok r => r.fb
  | Except.error _ => { lo := fun _ => 0, hi := fun _ => 0 }

/-- Velocity box passed to the kernel by a successful call. -/
def nvVelBoxOf (x : Except MexErr NormalVelResult) : Box3 :=
  match x with
  | Except.ok r => r.velBox
  | Except.error _ => { lo := fun _ => 0, hi := fun _ => 0 }

/-- Plus-gradient box passed to the kernel by a successful call. -/
def nvGradBoxOf (x : Except MexErr NormalVelResult) : Box3 :=
  match x with
  | Except.ok r => r.gradBox
  | Except.error _ => { lo := fun _ => 0, hi := fun _ => 0 }

/-- Minus-gradient box passed to the kernel by a successful call. -/
def nvGradMinusBoxOf (x : Except MexErr NormalVelResult) : Box3 :=
  match x with
  | Except.ok r => r.gradMinusBox
  | Except.error _ => { lo := fun _ => 0, hi := fun _ => 0 }

/-- Modelled from the spec: Fortran body of
`LSM3D_ADD_ADVECTION_TERM_TO_LSE_RHS_LOCAL` (only its C declaration, in
`lsm_level_set_evolution3d_local.h`, is among the sources).  The routine
loops over the listed narrow-band points; at each point whose
`narrow_band` tag is at most `mark_fb` it adds
`-(vel . grad(phi))` to `lse_rhs`; every other cell of the output is left
untouched. -/
noncomputable def LSM3D_ADD_ADVECTION_TERM_TO_LSE_RHS_LOCAL
    (phi_x phi_y phi_z vel_x vel_y vel_z : Idx3 → ℝ)
    (narrow_band : Idx3 → Nat) (mark_fb : Nat) :
    (Idx3 → ℝ) → List Idx3 → (Idx3 → ℝ)
  | lse_rhs, [] => lse_rhs
  | lse_rhs, q :: rest =>
    LSM3D_ADD_ADVECTION_TERM_TO_LSE_RHS_LOCAL phi_x phi_y phi_z vel_x vel_y vel_z
      narrow_band mark_fb
      (if narrow_band q ≤ mark_fb then
        Function.update lse_rhs q
          (lse_rhs q - (vel_x q * phi_x q + vel_y q * phi_y q + vel_z q * phi_z q))
      else lse_rhs)
      rest

/-- Modelled from the spec: extraction of the Trial point with minimum
tentative value from the Fast Marching priority structure, with the
deterministic insertion-order tie-break (the first point of minimal value
is taken).  Points are abstract tags paired with their tentative value. -/
def extractMinTrial : List (Nat × ℚ) → Option ((Nat × ℚ) × List (Nat × ℚ))
  | [] => none
  | x :: xs =>
    match extractMinTrial xs with
    | none => some (x, [])
    | some (m, rest) => if x.2 ≤ m.2 then some (x, xs) else some (m, x :: rest)

/-- Modelled from the spec: the Fast Marching main loop.  At each step the
minimum-value Trial point is extracted and frozen to Known, and the
neighbour update recomputes tentative values through the local causal
solve, abstracted here as a function `upd` from the just-frozen value and
the remaining Trial entries to the new Trial entries.  `fuel` bounds the
number of iterations; the loop also stops when the structure is empty.
The frozen points are returned in freezing order. -/
def fmmLoop (upd : ℚ → List (Nat × ℚ) → List (Nat × ℚ)) :
    Nat → List (Nat × ℚ) → List (Nat × ℚ) → List (Nat × ℚ)
  | 0, _, frozen => frozen.reverse
  | fuel + 1, trial, frozen =>
    match extractMinTrial trial with
    | none => frozen.reverse
    | some (x, rest) => fmmLoop upd fuel (upd x.2 rest) (x :: frozen)

/-- Causality of the local solve, as the spec states it: a tentative
value recomputed after freezing a point of value `v` exceeds the Known
values it uses, so when every remaining Trial value is at least `v`, all
updated Trial values are at least `v`. -/
def UpdCausal (upd : ℚ → List (Nat × ℚ) → List (Nat × ℚ)) : Prop :=
  ∀ v rest, (∀ y ∈ rest, v ≤ y.2) → ∀ z ∈ upd v rest, v ≤ z.2

/-- Point with all coordinates 1, used to sample the ghost region. -/
def idxOne : Idx3 := fun _ => 1

/-- Double-precision mxArray of the given dimensions with zero data. -/
noncomputable def mkArrD (d : List Nat) : MxArray :=
  { dims := d, cls := MxClass.double, data := fun _ => 0 }

/-- Single-precision mxArray of the given dimensions with zero data. -/
noncomputable def mkArrS (d : List Nat) : MxArray :=
  { dims := d, cls := MxClass.single, data := fun _ => 0 }

/-- Well-formed `HJ_ENO3_3D` call with `ghostcell_width = 1`, below the
minimum of 2 that third-order ENO needs. -/
noncomputable def hjInputC1 : HjEno3Input :=
  { nrhs := 3, nlhs := 6, phi := mkArrD [7, 7, 7], ghostcell_width := 1,
    dX := fun _ => 1, allocOk := fun _ => true }

/-- Well-formed `HJ_ENO3_3D` call with `ghostcell_width = 2`. -/
noncomputable def hjInputW : HjEno3Input :=
  { nrhs := 3, nlhs := 6, phi := mkArrD [7, 7, 7], ghostcell_width := 2,
    dX := fun _ => 1, allocOk := fun _ => true }

/-- `HJ_ENO3_3D` call whose `phi` is single-precision, mismatching a
double-precision build. -/
noncomputable def hjInputMis : HjEno3Input :=
  { nrhs := 3, nlhs := 6, phi := mkArrS [7, 7, 7], ghostcell_width := 2,
    dX := fun _ => 1, allocOk := fun _ => true }

/-- `HJ_ENO3_3D` call in which the second scratch allocation fails. -/
noncomputable def hjInputAlloc : HjEno3Input :=
  { nrhs := 3, nlhs := 6, phi := mkArrD [7, 7, 7], ghostcell_width := 2,
    dX := fun _ => 1,
    allocOk := fun i =>
      match i with
      | 0 => true
      | 1 => false
      | 2 => true }

/-- Well-formed normal-velocity RHS call: all arrays 5x5x5 double,
`ghostcell_width = 2`. -/
noncomputable def nvInputOk : NormalVelInput :=
  { nrhs := 9, nlhs := 1, phi := mkArrD [5, 5, 5], ghostcell_width := 2,
    normal_velocity := mkArrD [5, 5, 5],
    phi_x_plus := mkArrD [5, 5, 5], phi_y_plus := mkArrD [5, 5, 5],
    phi_z_plus := mkArrD [5, 5, 5],
    phi_x_minus := mkArrD [5, 5, 5], phi_y_minus := mkArrD [5, 5, 5],
    phi_z_minus := mkArrD [5, 5, 5] }

/-- Normal-velocity RHS call in which `phi_x_minus` is 3x3x3 while
`phi_x_plus` is 5x5x5: the plus and minus gradient arrays differ in
size. -/
noncomputable def nvInputC4 : NormalVelInput :=
  { nrhs := 9, nlhs := 1, phi := mkArrD [5, 5, 5], ghostcell_width := 2,
    normal_velocity := mkArrD [5, 5, 5],
    phi_x_plus := mkArrD [5, 5, 5], phi_y_plus := mkArrD [5, 5, 5],
    phi_z_plus := mkArrD [5, 5, 5],
    phi_x_minus := mkArrD [3, 3, 3], phi_y_minus := mkArrD [5, 5, 5],
    phi_z_minus := mkArrD [5, 5, 5] }

/-- Normal-velocity RHS call in which the velocity and gradient arrays
are smaller than `phi` along the first axis (extent 3 against 5). -/
noncomputable def nvInputC5 : NormalVelInput :=
  { nrhs := 9, nlhs := 1, phi := mkArrD [5, 5, 5], ghostcell_width := 2,
    normal_velocity := mkArrD [3, 5, 5],
    phi_x_plus := mkArrD [3, 5, 5], phi_y_plus := mkArrD [3, 5, 5],
    phi_z_plus := mkArrD [3, 5, 5],
    phi_x_minus := mkArrD [3, 5, 5], phi_y_minus := mkArrD [3, 5, 5],
    phi_z_minus := mkArrD [3, 5, 5] }

/-- Normal-velocity RHS call whose `normal_velocity` is single-precision,
mismatching a double-precision build. -/
noncomputable def nvInputMis : NormalVelInput :=
  { nrhs := 9, nlhs := 1, phi := mkArrD [5, 5, 5], ghostcell_width := 2,
    normal_velocity := mkArrS [5, 5, 5],
    phi_x_plus := mkArrD [5, 5, 5], phi_y_plus := mkArrD [5, 5, 5],
    phi_z_plus := mkArrD [5, 5, 5],
    phi_x_minus := mkArrD [5, 5, 5], phi_y_minus := mkArrD [5, 5, 5],
    phi_z_minus := mkArrD [5, 5, 5] }

theorem hj_ok_eq (cfgDouble : Bool) (inp : HjEno3Input)
    (h : isOkE (HJ_ENO3_3D cfgDouble inp) = true) :
    HJ_ENO3_3D cfgDouble inp = Except.ok (hjBuild cfgDouble inp) := by
  unfold HJ_ENO3_3D at h ⊢
  cases hE : hjError cfgDouble inp with
  | some e => rw [hE] at h; simp [isOkE] at h
  | none => rfl

theorem hjError_none_props (cfgDouble : Bool) (inp : HjEno3Input)
    (h : hjError cfgDouble inp = none) :
    inp.nrhs = 3 ∧ inp.nlhs ≤ 6 ∧ inp.phi.dims.length = 3 ∧
      inp.phi.cls = cfgClass cfgDouble ∧ ∀ i : Fin 3, inp.allocOk i = true := by
  unfold hjError at h
  repeat' split at h
  all_goals simp_all
  all_goals (intro i; fin_cases i <;> simp_all)

theorem hjError_is_none (cfgDouble : Bool) (inp : HjEno3Input)
    (h1 : inp.nrhs = 3) (h2 : inp.nlhs ≤ 6) (h3 : inp.phi.dims.length = 3)
    (h4 : inp.phi.cls = cfgClass cfgDouble) (h5 : ∀ i : Fin 3, inp.allocOk i = true) :
    hjError cfgDouble inp = none := by
  unfold hjError
  simp [h1, h2, h3, h4, h5, Nat.not_lt.mpr h2]

theorem normal_vel_kernel_frame
    (lse_rhs pxp pyp pzp pxm pym pzm vel : Idx3 → ℝ) (fb : Box3) (p : Idx3)
    (hp : inBox3 fb p = false) :
    LSM3D_ADD_NORMAL_VEL_TERM_TO_LSE_RHS lse_rhs pxp pyp pzp pxm pym pzm vel fb p
      = lse_rhs p := by
  unfold LSM3D_ADD_NORMAL_VEL_TERM_TO_LSE_RHS
  rw [hp]
  simp

theorem nv_ok_eq (cfgDouble : Bool) (inp : NormalVelInput)
    (h : isOkE (COMPUTE_NORMAL_VELOCITY_TERM_FOR_LSE_RHS_3D cfgDouble inp) = true) :
    COMPUTE_NORMAL_VELOCITY_TERM_FOR_LSE_RHS_3D cfgDouble inp
      = Except.ok (nvBuild cfgDouble inp) := by
  unfold COMPUTE_NORMAL_VELOCITY_TERM_FOR_LSE_RHS_3D at h ⊢
  cases hE : nvError cfgDouble inp with
  | some e => rw [hE] at h; simp [isOkE] at h
  | none => rfl

set_option maxHeartbeats 1600000 in
theorem nvError_none_props (cfgDouble : Bool) (inp : NormalVelInput)
    (h : nvError cfgDouble inp = none) :
    inp.nrhs = 9 ∧ inp.nlhs ≤ 1 ∧
      inp.phi.cls = cfgClass cfgDouble ∧
      inp.normal_velocity.cls = cfgClass cfgDouble ∧
      inp.phi_x_plus.cls = cfgClass cfgDouble ∧
      inp.phi_y_plus.cls = cfgClass cfgDouble ∧
      inp.phi_z_plus.cls = cfgClass cfgDouble ∧
      inp.phi_x_minus.cls = cfgClass cfgDouble ∧
      inp.phi_y_minus.cls = cfgClass cfgDouble ∧
      inp.phi_z_minus.cls = cfgClass cfgDouble ∧
      inp.phi.dims.length = 3 := by
  unfold nvError at h
  repeat' split at h
  all_goals simp_all

theorem nvError_is_none (cfgDouble : Bool) (inp : NormalVelInput)
    (h1 : inp.nrhs = 9) (h2 : inp.nlhs ≤ 1)
    (h3 : inp.phi.cls = cfgClass cfgDouble)
    (h4 : inp.normal_velocity.cls = cfgClass cfgDouble)
    (h5 : inp.phi_x_plus.cls = cfgClass cfgDouble)
    (h6 : inp.phi_y_plus.cls = cfgClass cfgDouble)
    (h7 : inp.phi_z_plus.cls = cfgClass cfgDouble)
    (h8 : inp.phi_x_minus.cls = cfgClass cfgDouble)
    (h9 : inp.phi_y_minus.cls = cfgClass cfgDouble)
    (h10 : inp.phi_z_minus.cls = cfgClass cfgDouble)
    (h11 : inp.phi.dims.length = 3) :
    nvError cfgDouble inp = none := by
  unfold nvError
  simp [h1, h2, h3, h4, h5, h6, h7, h8, h9, h10, h11, Nat.not_lt.mpr h2]

theorem extractMinTrial_none {l : List (Nat × ℚ)}
    (h : extractMinTrial l = none) : l = [] := by
  cases l with
  | nil => rfl
  | cons x xs =>
    unfold extractMinTrial at h
    rcases hxs : extractMinTrial xs with _ | m
    · rw [hxs] at h; simp at h
    · rw [hxs] at h
      rcases m with ⟨m, rest⟩
      by_cases hle : x.2 ≤ m.2 <;> simp [hle] at h

theorem extractMinTrial_spec {l : List (Nat × ℚ)} {x : Nat × ℚ}
    {rest : List (Nat × ℚ)} (h : extractMinTrial l = some (x, rest)) :
    x ∈ l ∧ (∀ y ∈ l, x.2 ≤ y.2) ∧ (∀ y ∈ rest, y ∈ l) := by
  induction l generalizing x rest with
  | nil => simp [extractMinTrial] at h
  | cons a as ih =>
    unfold extractMinTrial at h
    rcases has : extractMinTrial as with _ | m
    · rw [has] at h
      have hnil := extractMinTrial_none has
      subst hnil
      simp at h
      rcases h with ⟨h1, h2⟩
      subst h1; subst h2
      refine ⟨List.mem_cons_self _ _, ?_, ?_⟩ <;> simp
    · rw [has] at h
      rcases m with ⟨m, mrest⟩
      rcases ih has with ⟨hmem, hmin, hsub⟩
      by_cases hle : a.2 ≤ m.2
      · simp [hle] at h
        rcases h with ⟨h1, h2⟩
        subst h1; subst h2
        refine ⟨List.mem_cons_self _ _, ?_, ?_⟩
        · intro y hy
          rcases List.mem_cons.mp hy with hy | hy
          · subst hy; exact le_refl _
          · exact le_trans hle (hmin y hy)
        · intro y hy; exact List.mem_cons_of_mem _ hy
      · simp [hle] at h
        rcases h with ⟨h1, h2⟩
        subst h1; subst h2
        refine ⟨List.mem_cons_of_mem _ hmem, ?_, ?_⟩
        · intro y hy
          rcases List.mem_cons.mp hy with hy | hy
          · subst hy; exact le_of_lt (lt_of_not_le hle)
          · exact hmin y hy
        · intro y hy
          rcases List.mem_cons.mp hy with hy | hy
          · subst hy; exact List.mem_cons_self _ _
          · exact List.mem_cons_of_mem _ (hsub y hy)

theorem fmmLoop_sorted_aux (upd : ℚ → List (Nat × ℚ) → List (Nat × ℚ))
    (hupd : UpdCausal upd) :
    ∀ (fuel : Nat) (trial frozen : List (Nat × ℚ)),
      (∀ f ∈ frozen, ∀ t ∈ trial, f.2 ≤ t.2) →
      List.Pairwise (fun a b : Nat × ℚ => b.2 ≤ a.2) frozen →
      List.Pairwise (fun a b : Nat × ℚ => a.2 ≤ b.2)
        (fmmLoop upd fuel trial frozen) := by
  intro fuel
  induction fuel with
  | zero =>
    intro trial frozen _ hfr
    unfold fmmLoop
    exact List.pairwise_reverse.mpr hfr
  | succ n ih =>
    intro trial frozen hft hfr
    unfold fmmLoop
    rcases hE : extractMinTrial trial with _ | xr
    · exact List.pairwise_reverse.mpr hfr
    · rcases xr with ⟨x, rest⟩
      rcases extractMinTrial_spec hE with ⟨hxmem, hxmin, hsub⟩
      have hrest_ge : ∀ y ∈ rest, x.2 ≤ y.2 := fun y hy => hxmin y (hsub y hy)
      have hnew_ge : ∀ z ∈ upd x.2 rest, x.2 ≤ z.2 := hupd x.2 rest hrest_ge
      apply ih
      · intro f hf t ht
        rcases List.mem_cons.mp hf with hf | hf
        · subst hf; exact hnew_ge t ht
        · exact le_trans (hft f hf x hxmem) (hnew_ge t ht)
      · exact List.pairwise_cons.mpr ⟨fun b hb => hft b hb x hxmem, hfr⟩

/-- Claim C1, counterexample: `HJ_ENO3_3D` called with
`ghostcell_width = 1`, below the order-dependent minimum of 2 for
third-order ENO, does not fail with an input-validation error - the call
succeeds.  The claim, as stated, is false on the code. -/
theorem hj_eno3_missing_ghostwidth_check_cex :
    hjInputC1.ghostcell_width = 1 ∧
      isOkE (HJ_ENO3_3D true hjInputC1) = true ∧
      isErrE (HJ_ENO3_3D true hjInputC1) = false := by
  refine ⟨rfl, ?_, ?_⟩ <;> decide

/-- Claim C1 (amended): `HJ_ENO3_3D` performs no ghostcell-width
validation.  Every call that passes the argument-count, output-count,
dimensionality, precision and scratch-allocation checks succeeds for any
`ghostcell_width`, with the fillbox set to the ghostbox shrunk by the
supplied width on each side of each axis. -/
theorem hj_eno3_no_ghostwidth_validation (cfgDouble : Bool) (inp : HjEno3Input)
    (h1 : inp.nrhs = 3) (h2 : inp.nlhs ≤ 6) (h3 : inp.phi.dims.length = 3)
    (h4 : inp.phi.cls = cfgClass cfgDouble)
    (h5 : ∀ i : Fin 3, inp.allocOk i = true) :
    isOkE (HJ_ENO3_3D cfgDouble inp) = true ∧
      hjFbOf (HJ_ENO3_3D cfgDouble inp)
        = shrinkBox (mxGhostBox inp.phi) inp.ghostcell_width := by
  have hE := hjError_is_none cfgDouble inp h1 h2 h3 h4 h5
  unfold HJ_ENO3_3D
  rw [hE]
  exact ⟨rfl, rfl⟩

/-- Claim C1 (amended), witness at a concrete input. -/
theorem hj_eno3_no_ghostwidth_validation_witness :
    isOkE (HJ_ENO3_3D true hjInputW) = true ∧
      hjFbOf (HJ_ENO3_3D true hjInputW)
        = shrinkBox (mxGhostBox hjInputW.phi) hjInputW.ghostcell_width :=
  hj_eno3_no_ghostwidth_validation true hjInputW rfl (by decide) rfl rfl
    (fun _ => rfl)

/-- Claim C8: when any of the three scratch allocations of `HJ_ENO3_3D`
fails, the call frees exactly the scratch arrays that were allocated and
fails with an error before creating any output array and before any
derivative computation - the result is an error, so no partial output is
produced. -/
theorem hj_eno3_alloc_failure_cleanup (cfgDouble : Bool) (inp : HjEno3Input)
    (h1 : inp.nrhs = 3) (h2 : inp.nlhs ≤ 6) (h3 : inp.phi.dims.length = 3)
    (h4 : inp.phi.cls = cfgClass cfgDouble)
    (h5 : ∃ i : Fin 3, inp.allocOk i = false) :
    HJ_ENO3_3D cfgDouble inp
        = Except.error (MexErr.allocFailure (hjFreedList inp)) ∧
      (∀ i : Fin 3, i ∈ hjFreedList inp ↔ inp.allocOk i = true) := by
  constructor
  · have hand : (inp.allocOk 0 && inp.allocOk 1 && inp.allocOk 2) = false := by
      rcases h5 with ⟨i, hi⟩
      fin_cases i <;> simp_all
    unfold HJ_ENO3_3D hjError
    simp [h1, h2, h3, h4, Nat.not_lt.mpr h2, hand]
  · intro i
    simp [hjFreedList, List.mem_filter, List.mem_finRange]

/-- Claim C8, witness: the second scratch allocation fails; the call
returns the allocation error and the freed list contains exactly the
first and third scratch arrays. -/
theorem hj_eno3_alloc_failure_cleanup_witness :
    HJ_ENO3_3D true hjInputAlloc
        = Except.error (MexErr.allocFailure (hjFreedList hjInputAlloc)) ∧
      (∀ i : Fin 3, i ∈ hjFreedList hjInputAlloc ↔ hjInputAlloc.allocOk i = true) :=
  hj_eno3_alloc_failure_cleanup true hjInputAlloc rfl (by decide) rfl rfl
    ⟨1, rfl⟩

/-- Claim C2: for both the derivative operation (`HJ_ENO3_3D`) and the
RHS operation (`COMPUTE_NORMAL_VELOCITY_TERM_FOR_LSE_RHS_3D`), a call in
which any required input buffer's floating-point class disagrees with the
configured build precision is rejected with an error; the embedded check
sequence errors before any allocation or computation, and the bits are
never reinterpreted. -/
theorem precision_mismatch_fails_fast (cfgDouble : Bool) :
    (∀ inp : HjEno3Input, inp.phi.cls ≠ cfgClass cfgDouble →
      isErrE (HJ_ENO3_3D cfgDouble inp) = true) ∧
    (∀ inp : NormalVelInput,
      (inp.phi.cls ≠ cfgClass cfgDouble ∨
       inp.normal_velocity.cls ≠ cfgClass cfgDouble ∨
       inp.phi_x_plus.cls ≠ cfgClass cfgDouble ∨
       inp.phi_y_plus.cls ≠ cfgClass cfgDouble ∨
       inp.phi_z_plus.cls ≠ cfgClass cfgDouble ∨
       inp.phi_x_minus.cls ≠ cfgClass cfgDouble ∨
       inp.phi_y_minus.cls ≠ cfgClass cfgDouble ∨
       inp.phi_z_minus.cls ≠ cfgClass cfgDouble) →
      isErrE (COMPUTE_NORMAL_VELOCITY_TERM_FOR_LSE_RHS_3D cfgDouble inp) = true) := by
  constructor
  · intro inp hcls
    unfold HJ_ENO3_3D
    cases hE : hjError cfgDouble inp with
    | some e => rfl
    | none => exact absurd (hjError_none_props cfgDouble inp hE).2.2.2.1 hcls
  · intro inp hcls
    unfold COMPUTE_NORMAL_VELOCITY_TERM_FOR_LSE_RHS_3D
    cases hE : nvError cfgDouble inp with
    | some e => rfl
    | none =>
      obtain ⟨-, -, c1, c2, c3, c4, c5, c6, c7, c8, -⟩ :=
        nvError_none_props cfgDouble inp hE
      rcases hcls with hc | hc | hc | hc | hc | hc | hc | hc <;> contradiction

/-- Claim C2, witness: a single-precision `phi` under a double-precision
build is rejected by `HJ_ENO3_3D`, and a single-precision
`normal_velocity` under a double-precision build is rejected by the RHS
operation. -/
theorem precision_mismatch_fails_fast_witness :
    isErrE (HJ_ENO3_3D true hjInputMis) = true ∧
      isErrE (COMPUTE_NORMAL_VELOCITY_TERM_FOR_LSE_RHS_3D true nvInputMis) = true :=
  ⟨(precision_mismatch_fails_fast true).1 hjInputMis (by decide),
   (precision_mismatch_fails_fast true).2 nvInputMis (Or.inr (Or.inl (by decide)))⟩

/-- Claim C3: every successful normal-velocity RHS call creates `lse_rhs`
with exactly `phi`'s ghostbox extents; the fillbox passed to the kernel
is the ghostbox shrunk by `ghostcell_width` on each side of each axis;
every cell outside that fillbox is exactly zero on return (the wrapper
zeroes the whole array and the kernel writes only inside the fillbox);
and the kernel leaves every cell outside its fillbox untouched. -/
theorem nv_rhs_zero_outside_fillbox (cfgDouble : Bool) (inp : NormalVelInput)
    (h : isOkE (COMPUTE_NORMAL_VELOCITY_TERM_FOR_LSE_RHS_3D cfgDouble inp) = true) :
    (nvCreatedOf (COMPUTE_NORMAL_VELOCITY_TERM_FOR_LSE_RHS_3D cfgDouble inp)).dims
        = mxDims3 inp.phi ∧
      nvFbOf (COMPUTE_NORMAL_VELOCITY_TERM_FOR_LSE_RHS_3D cfgDouble inp)
        = shrinkBox (mxGhostBox inp.phi) inp.ghostcell_width ∧
      (∀ p : Idx3,
        inBox3 (nvFbOf (COMPUTE_NORMAL_VELOCITY_TERM_FOR_LSE_RHS_3D cfgDouble inp)) p
            = false →
        nvRhsOf (COMPUTE_NORMAL_VELOCITY_TERM_FOR_LSE_RHS_3D cfgDouble inp) p = 0) ∧
      (∀ (lse_rhs pxp pyp pzp pxm pym pzm vel : Idx3 → ℝ) (fb : Box3) (p : Idx3),
        inBox3 fb p = false →
        LSM3D_ADD_NORMAL_VEL_TERM_TO_LSE_RHS lse_rhs pxp pyp pzp pxm pym pzm vel fb p
          = lse_rhs p) := by
  rw [nv_ok_eq cfgDouble inp h]
  refine ⟨?_, rfl, ?_, ?_⟩
  · funext a
    show mxDimI inp.phi a - 1 + 1 = mxDims3 inp.phi a
    unfold mxDims3
    omega
  · intro p hp
    simp only [nvRhsOf, nvFbOf, nvBuild] at hp ⊢
    rw [normal_vel_kernel_frame _ _ _ _ _ _ _ _ _ p hp]
  · intro lse_rhs pxp pyp pzp pxm pym pzm vel fb p hp
    exact normal_vel_kernel_frame lse_rhs pxp pyp pzp pxm pym pzm vel fb p hp

/-- Claim C3, witness: for the well-formed 5x5x5 call with ghost width 2,
the output at the ghost corner (1,1,1) is exactly zero. -/
theorem nv_rhs_zero_outside_fillbox_witness :
    isOkE (COMPUTE_NORMAL_VELOCITY_TERM_FOR_LSE_RHS_3D true nvInputOk) = true ∧
      nvRhsOf (COMPUTE_NORMAL_VELOCITY_TERM_FOR_LSE_RHS_3D true nvInputOk) idxOne = 0 :=
  ⟨by decide,
   (nv_rhs_zero_outside_fillbox true nvInputOk (by decide)).2.2.1 idxOne (by decide)⟩

/-- Claim C4, counterexample: a normal-velocity RHS call whose
`phi_x_minus` differs in size from `phi_x_plus` is not rejected - the
call succeeds.  The claim that mismatched extents fail fast is false on
the code. -/
theorem nv_no_extent_check_cex :
    nvInputC4.phi_x_minus.dims ≠ nvInputC4.phi_x_plus.dims ∧
      isOkE (COMPUTE_NORMAL_VELOCITY_TERM_FOR_LSE_RHS_3D true nvInputC4) = true := by
  refine ⟨?_, ?_⟩ <;> decide

/-- Claim C4 (amended): the operations perform no extent-mismatch
validation.  Every normal-velocity RHS call that passes the
argument-count, precision and `phi`-dimensionality checks succeeds
regardless of array extents; the gradient bounds are read from
`phi_x_plus` alone and reused unchanged for the minus-gradient arrays,
and extents differing from `phi`'s are absorbed by the symmetric
centering shift rather than rejected. -/
theorem nv_no_extent_mismatch_validation (cfgDouble : Bool) (inp : NormalVelInput)
    (h1 : inp.nrhs = 9) (h2 : inp.nlhs ≤ 1)
    (h3 : inp.phi.cls = cfgClass cfgDouble)
    (h4 : inp.normal_velocity.cls = cfgClass cfgDouble)
    (h5 : inp.phi_x_plus.cls = cfgClass cfgDouble)
    (h6 : inp.phi_y_plus.cls = cfgClass cfgDouble)
    (h7 : inp.phi_z_plus.cls = cfgClass cfgDouble)
    (h8 : inp.phi_x_minus.cls = cfgClass cfgDouble)
    (h9 : inp.phi_y_minus.cls = cfgClass cfgDouble)
    (h10 : inp.phi_z_minus.cls = cfgClass cfgDouble)
    (h11 : inp.phi.dims.length = 3) :
    isOkE (COMPUTE_NORMAL_VELOCITY_TERM_FOR_LSE_RHS_3D cfgDouble inp) = true ∧
      nvGradMinusBoxOf (COMPUTE_NORMAL_VELOCITY_TERM_FOR_LSE_RHS_3D cfgDouble inp)
        = nvGradBoxOf (COMPUTE_NORMAL_VELOCITY_TERM_FOR_LSE_RHS_3D cfgDouble inp) := by
  have hE := nvError_is_none cfgDouble inp h1 h2 h3 h4 h5 h6 h7 h8 h9 h10 h11
  unfold COMPUTE_NORMAL_VELOCITY_TERM_FOR_LSE_RHS_3D
  rw [hE]
  exact ⟨rfl, rfl⟩

/-- Claim C4 (amended), witness: the mismatched-extent call succeeds and
the minus-gradient bounds equal the plus-gradient bounds. -/
theorem nv_no_extent_mismatch_validation_witness :
    isOkE (COMPUTE_NORMAL_VELOCITY_TERM_FOR_LSE_RHS_3D true nvInputC4) = true ∧
      nvGradMinusBoxOf (COMPUTE_NORMAL_VELOCITY_TERM_FOR_LSE_RHS_3D true nvInputC4)
        = nvGradBoxOf (COMPUTE_NORMAL_VELOCITY_TERM_FOR_LSE_RHS_3D true nvInputC4) :=
  nv_no_extent_mismatch_validation true nvInputC4 rfl (by decide)
    rfl rfl rfl rfl rfl rfl rfl rfl rfl

/-- Claim C5: in a successful normal-velocity RHS call, when the velocity
(or gradient) array's extent along an axis is smaller than `phi`'s extent
along that axis, the bounds passed to the kernel for that array are
obtained by shifting both the low bound 1 and the high bound (the
extent) by `(phi extent - smaller extent)/2` (C integer division), so the
smaller ghostbox is centered symmetrically within `phi`'s ghostbox. -/
theorem nv_centering_shift (cfgDouble : Bool) (inp : NormalVelInput)
    (h : isOkE (COMPUTE_NORMAL_VELOCITY_TERM_FOR_LSE_RHS_3D cfgDouble inp) = true)
    (a : Fin 3) :
    (mxDimI inp.normal_velocity a < mxDimI inp.phi a →
      (nvVelBoxOf (COMPUTE_NORMAL_VELOCITY_TERM_FOR_LSE_RHS_3D cfgDouble inp)).lo a
          = 1 + cIntDiv (mxDimI inp.phi a - mxDimI inp.normal_velocity a) 2 ∧
        (nvVelBoxOf (COMPUTE_NORMAL_VELOCITY_TERM_FOR_LSE_RHS_3D cfgDouble inp)).hi a
          = mxDimI inp.normal_velocity a
              + cIntDiv (mxDimI inp.phi a - mxDimI inp.normal_velocity a) 2) ∧
    (mxDimI inp.phi_x_plus a < mxDimI inp.phi a →
      (nvGradBoxOf (COMPUTE_NORMAL_VELOCITY_TERM_FOR_LSE_RHS_3D cfgDouble inp)).lo a
          = 1 + cIntDiv (mxDimI inp.phi a - mxDimI inp.phi_x_plus a) 2 ∧
        (nvGradBoxOf (COMPUTE_NORMAL_VELOCITY_TERM_FOR_LSE_RHS_3D cfgDouble inp)).hi a
          = mxDimI inp.phi_x_plus a
              + cIntDiv (mxDimI inp.phi a - mxDimI inp.phi_x_plus a) 2) := by
  rw [nv_ok_eq cfgDouble inp h]
  constructor
  · intro hlt
    have hne : mxDimI inp.normal_velocity a ≠ mxDimI inp.phi a := ne_of_lt hlt
    constructor <;> simp [nvVelBoxOf, nvBuild, centerBounds, hne]
  · intro hlt
    have hne : mxDimI inp.phi_x_plus a ≠ mxDimI inp.phi a := ne_of_lt hlt
    constructor <;> simp [nvGradBoxOf, nvBuild, centerBounds, hne]

/-- Claim C5, witness: velocity and gradient extent 3 against `phi`
extent 5 on the first axis gives shift 1: bounds 2..4. -/
theorem nv_centering_shift_witness :
    (mxDimI nvInputC5.normal_velocity 0 < mxDimI nvInputC5.phi 0 →
      (nvVelBoxOf (COMPUTE_NORMAL_VELOCITY_TERM_FOR_LSE_RHS_3D true nvInputC5)).lo 0
          = 1 + cIntDiv (mxDimI nvInputC5.phi 0 - mxDimI nvInputC5.normal_velocity 0) 2 ∧
        (nvVelBoxOf (COMPUTE_NORMAL_VELOCITY_TERM_FOR_LSE_RHS_3D true nvInputC5)).hi 0
          = mxDimI nvInputC5.normal_velocity 0
              + cIntDiv (mxDimI nvInputC5.phi 0 - mxDimI nvInputC5.normal_velocity 0) 2) ∧
    (mxDimI nvInputC5.phi_x_plus 0 < mxDimI nvInputC5.phi 0 →
      (nvGradBoxOf (COMPUTE_NORMAL_VELOCITY_TERM_FOR_LSE_RHS_3D true nvInputC5)).lo 0
          = 1 + cIntDiv (mxDimI nvInputC5.phi 0 - mxDimI nvInputC5.phi_x_plus 0) 2 ∧
        (nvGradBoxOf (COMPUTE_NORMAL_VELOCITY_TERM_FOR_LSE_RHS_3D true nvInputC5)).hi 0
          = mxDimI nvInputC5.phi_x_plus 0
              + cIntDiv (mxDimI nvInputC5.phi 0 - mxDimI nvInputC5.phi_x_plus 0) 2) :=
  nv_centering_shift true nvInputC5 (by decide) 0

/-- Claim C9: every `HJ_ENO3_3D` call that passes validation allocates
each of the six returned derivative arrays with exactly `phi`'s
dimensions, and every successful normal-velocity RHS call allocates
`lse_rhs` with exactly `phi`'s dimensions. -/
theorem output_arrays_match_phi_dims (cfgDouble : Bool)
    (inp1 : HjEno3Input) (inp2 : NormalVelInput)
    (h1 : isOkE (HJ_ENO3_3D cfgDouble inp1) = true)
    (h2 : isOkE (COMPUTE_NORMAL_VELOCITY_TERM_FOR_LSE_RHS_3D cfgDouble inp2) = true) :
    (∀ o ∈ hjOutputsOf (HJ_ENO3_3D cfgDouble inp1), o.dims = mxDims3 inp1.phi) ∧
      (nvCreatedOf (COMPUTE_NORMAL_VELOCITY_TERM_FOR_LSE_RHS_3D cfgDouble inp2)).dims
        = mxDims3 inp2.phi := by
  constructor
  · rw [hj_ok_eq cfgDouble inp1 h1]
    intro o ho
    simp [hjOutputsOf, hjBuild] at ho
    subst ho
    funext a
    show mxDimI inp1.phi a - 1 + 1 = mxDims3 inp1.phi a
    unfold mxDims3
    omega
  · rw [nv_ok_eq cfgDouble inp2 h2]
    funext a
    show mxDimI inp2.phi a - 1 + 1 = mxDims3 inp2.phi a
    unfold mxDims3
    omega

/-- Claim C9, witness at concrete well-formed inputs. -/
theorem output_arrays_match_phi_dims_witness :
    (∀ o ∈ hjOutputsOf (HJ_ENO3_3D true hjInputW), o.dims = mxDims3 hjInputW.phi) ∧
      (nvCreatedOf (COMPUTE_NORMAL_VELOCITY_TERM_FOR_LSE_RHS_3D true nvInputOk)).dims
        = mxDims3 nvInputOk.phi :=
  output_arrays_match_phi_dims true hjInputW nvInputOk (by decide) (by decide)

/-- Claim C10: `HJ_ENO3_3D` permutes its inputs to the derivative kernel
consistently with MATLAB meshgrid `(j,i,k)` storage: the spacing passed
for the first array index is `dX[1]` and for the second is `dX[0]`
(`dX[2]` unchanged), the x- and y-derivative output pointers are swapped
in the kernel call, and consequently each positional kernel slot pairs
the output array of a coordinate axis with that axis's own grid
spacing. -/
theorem hj_eno3_meshgrid_permutation (cfgDouble : Bool) (inp : HjEno3Input)
    (h : isOkE (HJ_ENO3_3D cfgDouble inp) = true) :
    (hjDxMeshOf (HJ_ENO3_3D cfgDouble inp) 0 = inp.dX 1 ∧
      hjDxMeshOf (HJ_ENO3_3D cfgDouble inp) 1 = inp.dX 0 ∧
      hjDxMeshOf (HJ_ENO3_3D cfgDouble inp) 2 = inp.dX 2) ∧
    (hjKernelSlotOutput 0 = GradAxis.y ∧ hjKernelSlotOutput 1 = GradAxis.x ∧
      hjKernelSlotOutput 2 = GradAxis.z) ∧
    (∀ s : Fin 3,
      hjDxMeshOf (HJ_ENO3_3D cfgDouble inp) s = dxOfAxis inp.dX (hjKernelSlotOutput s) ∧
        hjKernelSlotOutput s = meshgridAxisOfIndex s) := by
  rw [hj_ok_eq cfgDouble inp h]
  refine ⟨⟨rfl, rfl, rfl⟩, ⟨rfl, rfl, rfl⟩, ?_⟩
  intro s
  fin_cases s <;> exact ⟨rfl, rfl⟩

/-- Claim C10, witness at a concrete well-formed input. -/
theorem hj_eno3_meshgrid_permutation_witness :
    (hjDxMeshOf (HJ_ENO3_3D true hjInputW) 0 = hjInputW.dX 1 ∧
      hjDxMeshOf (HJ_ENO3_3D true hjInputW) 1 = hjInputW.dX 0 ∧
      hjDxMeshOf (HJ_ENO3_3D true hjInputW) 2 = hjInputW.dX 2) ∧
    (hjKernelSlotOutput 0 = GradAxis.y ∧ hjKernelSlotOutput 1 = GradAxis.x ∧
      hjKernelSlotOutput 2 = GradAxis.z) ∧
    (∀ s : Fin 3,
      hjDxMeshOf (HJ_ENO3_3D true hjInputW) s = dxOfAxis hjInputW.dX (hjKernelSlotOutput s) ∧
        hjKernelSlotOutput s = meshgridAxisOfIndex s) :=
  hj_eno3_meshgrid_permutation true hjInputW (by decide)

/-- Claim C6: the narrow-band (local) RHS routine supplied with a
narrow-band tag array and threshold `mark_fb` writes only to output cells
among the listed index points whose tag is at most `mark_fb`; every other
output cell is left unchanged, and so remains exactly zero when the
caller pre-zeroed the output. -/
theorem advection_local_narrow_band_frame
    (phi_x phi_y phi_z vel_x vel_y vel_z : Idx3 → ℝ)
    (narrow_band : Idx3 → Nat) (mark_fb : Nat)
    (lse_rhs : Idx3 → ℝ) (pts : List Idx3) (p : Idx3)
    (hp : p ∉ pts ∨ mark_fb < narrow_band p) :
    LSM3D_ADD_ADVECTION_TERM_TO_LSE_RHS_LOCAL phi_x phi_y phi_z vel_x vel_y vel_z
        narrow_band mark_fb lse_rhs pts p = lse_rhs p := by
  induction pts generalizing lse_rhs with
  | nil => rfl
  | cons q rest ih =>
    unfold LSM3D_ADD_ADVECTION_TERM_TO_LSE_RHS_LOCAL
    rcases hp with hp | hp
    · have hq : p ≠ q := fun hEq => hp (hEq ▸ List.mem_cons_self _ _)
      have hrest : p ∉ rest := fun hm => hp (List.mem_cons_of_mem _ hm)
      rw [ih _ (Or.inl hrest)]
      by_cases ht : narrow_band q ≤ mark_fb
      · rw [if_pos ht, Function.update_noteq hq]
      · rw [if_neg ht]
    · rw [ih _ (Or.inr hp)]
      by_cases hq : q = p
      · subst hq
        rw [if_neg (by omega)]
      · by_cases ht : narrow_band q ≤ mark_fb
        · rw [if_pos ht, Function.update_noteq (fun hEq => hq hEq.symm)]
        · rw [if_neg ht]

/-- Claim C6, witness: the point (2,2,2) is not among the listed points,
so the pre-zeroed output stays exactly zero there. -/
theorem advection_local_narrow_band_frame_witness :
    ((fun _ => 2 : Idx3) ∉ [(fun _ => 1 : Idx3)] ∨ (1 : Nat) < 0) ∧
      LSM3D_ADD_ADVECTION_TERM_TO_LSE_RHS_LOCAL (fun _ => 1) (fun _ => 1) (fun _ => 1)
        (fun _ => 1) (fun _ => 1) (fun _ => 1) (fun _ => 0) 1 (fun _ => 0)
        [(fun _ => 1 : Idx3)] (fun _ => 2) = 0 :=
  ⟨Or.inl (by decide),
   advection_local_narrow_band_frame (fun _ => 1) (fun _ => 1) (fun _ => 1)
     (fun _ => 1) (fun _ => 1) (fun _ => 1) (fun _ => 0) 1 (fun _ => 0)
     [(fun _ => 1 : Idx3)] (fun _ => 2) (Or.inl (by decide))⟩

/-- Claim C7: for every Fast Marching run whose neighbour update obeys
the causal local-solve property, the sequence of values frozen by the
main loop is non-decreasing: for all steps `i < j`, the value frozen at
step `i` is at most the value frozen at step `j`. -/
theorem fmm_frozen_values_monotone (upd : ℚ → List (Nat × ℚ) → List (Nat × ℚ))
    (hupd : UpdCausal upd) (fuel : Nat) (trial : List (Nat × ℚ)) :
    List.Pairwise (fun a b : Nat × ℚ => a.2 ≤ b.2) (fmmLoop upd fuel trial []) :=
  fmmLoop_sorted_aux upd hupd fuel trial [] (by simp) (by simp)

/-- Claim C7, witness: a concrete run over three Trial points freezes
them in non-decreasing value order. -/
theorem fmm_frozen_values_monotone_witness :
    List.Pairwise (fun a b : Nat × ℚ => a.2 ≤ b.2)
      (fmmLoop (fun _ rest => rest) 5 [(0, 3), (1, 1), (2, 2)] []) :=
  fmm_frozen_values_monotone (fun _ rest => rest) (fun _ _ h => h) 5
    [(0, 3), (1, 1), (2, 2)]
